import Mathlib

/-! Verification of the punchpy attendance ledger: a shallow embedding of the
SQLite-backed operations shared by the demo console (src/demo.py), the desktop
GUI (src/clock_gui.py) and the web admin panel (src/webui.py), with theorems
about enrollment, the clock in/out toggle rule, deletion and failure handling.
Timestamps are modelled by a monotone store clock advanced at each insert, so
sequential, non-concurrent calls receive strictly increasing timestamps. -/

namespace Punchpy

/-- A row of the users table: id INTEGER PRIMARY KEY, card_uid TEXT UNIQUE NOT
NULL, name TEXT NOT NULL (created_at plays no role in any claim and is left
off). -/
structure User where
  id : Nat
  card_uid : String
  name : String
  deriving Repr, DecidableEq

/-- A row of the clock_events table: id INTEGER PRIMARY KEY, user_id INTEGER
NOT NULL, event_type TEXT NOT NULL, timestamp TIMESTAMP DEFAULT
CURRENT_TIMESTAMP. The schema puts no CHECK constraint on event_type. -/
structure ClockEvent where
  id : Nat
  user_id : Nat
  event_type : String
  timestamp : Nat
  deriving Repr, DecidableEq

/-- The persistent store (clockinout.db): the two tables, the next
autoincrement row ids, and the wall clock standing in for CURRENT_TIMESTAMP. -/
structure Store where
  users : List User
  events : List ClockEvent
  nextUserId : Nat
  nextEventId : Nat
  now : Nat
  deriving Repr, DecidableEq

/-- A freshly created database: both tables empty, row ids starting at 1. -/
def Store.empty : Store := ⟨[], [], 1, 1, 0⟩

/-- Does some users row already hold this card_uid (the UNIQUE constraint)? -/
def cardExists (s : Store) (card_uid : String) : Bool :=
  s.users.any (fun u => u.card_uid == card_uid)

/-- add_user of demo.py and webui.py: INSERT INTO users (card_uid, name).
A sqlite3.IntegrityError from the UNIQUE constraint (or any other Exception)
is caught and False returned, leaving the store unchanged. -/
def add_user (s : Store) (card_uid name : String) : Bool × Store :=
  if cardExists s card_uid then (false, s)
  else (true, { s with
    users := s.users ++ [⟨s.nextUserId, card_uid, name⟩],
    nextUserId := s.nextUserId + 1 })

/-- get_user_by_card of demo.py and clock_gui.py: SELECT id, name FROM users
WHERE card_uid = ? with fetchone, so the first matching row or None. -/
def get_user_by_card (s : Store) (card_uid : String) : Option (Nat × String) :=
  (s.users.find? (fun u => u.card_uid == card_uid)).map (fun u => (u.id, u.name))

/-- record_clock_event of demo.py and clock_gui.py: INSERT INTO clock_events
(user_id, event_type). The kind string is stored exactly as given (no CHECK
constraint) and the timestamp defaults to the current time. -/
def record_clock_event (s : Store) (user_id : Nat) (event_type : String) :
    Bool × Store :=
  (true, { s with
    events := s.events ++ [⟨s.nextEventId, user_id, event_type, s.now⟩],
    nextEventId := s.nextEventId + 1,
    now := s.now + 1 })

/-- The clock_events rows of one user, in insertion order. -/
def userEvents (s : Store) (user_id : Nat) : List ClockEvent :=
  s.events.filter (fun e => e.user_id == user_id)

/-- Combine one event with the best of the rest: keep whichever timestamp is
larger (the rest wins a tie, so a later-inserted row prevails). -/
def maxTwo (e : ClockEvent) : Option ClockEvent → Option ClockEvent
  | none => some e
  | some m => if e.timestamp ≤ m.timestamp then some m else some e

/-- The row ORDER BY timestamp DESC LIMIT 1 selects: an event of maximal
timestamp (a later-inserted row wins a tie). -/
def maxByTimestamp : List ClockEvent → Option ClockEvent
  | [] => none
  | e :: es => maxTwo e (maxByTimestamp es)

/-- get_last_event of demo.py and clock_gui.py: SELECT event_type FROM
clock_events WHERE user_id = ? ORDER BY timestamp DESC LIMIT 1. -/
def get_last_event (s : Store) (user_id : Nat) : Option String :=
  (maxByTimestamp (userEvents s user_id)).map (fun e => e.event_type)

/-- The toggle of process_scan (demo.py) and process_card (clock_gui.py):
event_type is "out" if last_event == "in" else "in". -/
def next_kind (last : Option String) : String :=
  if last == some "in" then "out" else "in"

/-- The identity-level core of process_scan and process_card once the card
lookup has succeeded: read the last event kind, toggle, record. Returns the
kind recorded. -/
def record_event (s : Store) (user_id : Nat) : String × Store :=
  let k := next_kind (get_last_event s user_id)
  (k, (record_clock_event s user_id k).2)

/-- RFIDReader.process_scan of demo.py and ClockApp.process_card of
clock_gui.py: look the card up; an unknown card changes nothing, otherwise
toggle and record. -/
def process_scan (s : Store) (card_uid : String) : Option String × Store :=
  match get_user_by_card s card_uid with
  | none => (none, s)
  | some (uid, _) =>
    let r := record_event s uid
    (some r.1, r.2)

/-- validate_card_uid of demo.py: reject the empty string, then any uid
shorter than 2 or longer than 64 characters. -/
def validate_card_uid (card_uid : String) : Bool :=
  if card_uid == "" then false
  else if card_uid.length < 2 || card_uid.length > 64 then false
  else true

/-- How an enrollment attempt ends: rejected input, a duplicate card token, or
a new identity row inserted. -/
inductive EnrollOutcome where
  | invalidInput
  | duplicate
  | enrolled
  deriving Repr, DecidableEq

/-- The demo console's add-user path (demo.py main, choice 1): validate the
card uid, reject an empty name, then call add_user. -/
def demo_enroll (s : Store) (card_uid name : String) : EnrollOutcome × Store :=
  if !validate_card_uid card_uid then (EnrollOutcome.invalidInput, s)
  else if name == "" then (EnrollOutcome.invalidInput, s)
  else
    let r := add_user s card_uid name
    ((if r.1 then EnrollOutcome.enrolled else EnrollOutcome.duplicate), r.2)

/-- The web admin's add-user path (webui.py handle_add_user): reject only an
empty card uid or an empty name, then call add_user. -/
def webui_enroll (s : Store) (card_uid name : String) : EnrollOutcome × Store :=
  if card_uid == "" || name == "" then (EnrollOutcome.invalidInput, s)
  else
    let r := add_user s card_uid name
    ((if r.1 then EnrollOutcome.enrolled else EnrollOutcome.duplicate), r.2)

/-- update_user of webui.py: UPDATE users SET card_uid = ?, name = ? WHERE
id = ?. The UNIQUE constraint raises when the updated row would share its
card_uid with a different row; the exception is caught and False returned with
no change. Updating a missing id matches no row and reports success. -/
def update_user (s : Store) (user_id : Nat) (card_uid name : String) :
    Bool × Store :=
  if s.users.any (fun u => u.id == user_id) &&
      s.users.any (fun u => u.id != user_id && u.card_uid == card_uid) then
    (false, s)
  else
    (true, { s with users := s.users.map (fun u =>
      if u.id == user_id then { u with card_uid := card_uid, name := name }
      else u) })

/-- The statements of delete_user (webui.py) a storage fault can interrupt:
the two DELETEs and the final commit. -/
inductive DelStep where
  | delEvents
  | delUser
  | commit
  deriving Repr, DecidableEq

/-- delete_user of webui.py: DELETE FROM clock_events WHERE user_id = ?, then
DELETE FROM users WHERE id = ?, then one commit. A failure at any step is
caught and False returned; the connection is closed without committing, so
sqlite rolls the pending deletions back. failAt injects the storage fault. -/
def delete_user_run (s : Store) (user_id : Nat) (failAt : Option DelStep) :
    Bool × Store :=
  if failAt = some DelStep.delEvents then (false, s)
  else
    let pending1 : Store :=
      { s with events := s.events.filter (fun e => e.user_id != user_id) }
    if failAt = some DelStep.delUser then (false, s)
    else
      let pending2 : Store :=
        { pending1 with users := pending1.users.filter (fun u => u.id != user_id) }
      if failAt = some DelStep.commit then (false, s)
      else (true, pending2)

/-- delete_user of webui.py on a healthy store: no storage fault injected. -/
def delete_user (s : Store) (user_id : Nat) : Bool × Store :=
  delete_user_run s user_id none

/-- One row of get_clock_events (webui.py): the event joined with the owning
user's name. -/
structure EventRow where
  id : Nat
  name : String
  event_type : String
  timestamp : Nat
  deriving Repr, DecidableEq

/-- Insert a row into a list already sorted by descending timestamp. -/
def insertRowDesc (r : EventRow) : List EventRow → List EventRow
  | [] => [r]
  | x :: xs =>
    if x.timestamp ≤ r.timestamp then r :: x :: xs else x :: insertRowDesc r xs

/-- ORDER BY c.timestamp DESC, as an insertion sort. -/
def sortRowsDesc : List EventRow → List EventRow
  | [] => []
  | x :: xs => insertRowDesc x (sortRowsDesc xs)

/-- get_clock_events of webui.py restricted to the user_id filter the claims
exercise: join clock_events with users, keep one user's rows when asked
(Python's `if user_id:` skips the filter for None and for 0), newest first,
LIMIT 1000. The start_date/end_date filters appear in no claim and are left
off. -/
def get_clock_events (s : Store) (user_id : Option Nat) : List EventRow :=
  let evs : List ClockEvent := match user_id with
    | some uid =>
      if uid != 0 then s.events.filter (fun e => e.user_id == uid) else s.events
    | none => s.events
  let joined : List EventRow := evs.filterMap (fun e =>
    (s.users.find? (fun u => u.id == e.user_id)).map
      (fun u => EventRow.mk e.id u.name e.event_type e.timestamp))
  (sortRowsDesc joined).take 1000

/-- The outcome of calling one of the Python functions when the underlying
sqlite store may fault: either the function returns a value, or an uncaught
exception propagates to the caller. -/
inductive PyResult (α : Type) where
  | ok : α → PyResult α
  | raised : PyResult α
  deriving Repr, DecidableEq

/-- add_user under an injected storage fault: its try block catches
sqlite3.IntegrityError and every other Exception and returns False. -/
def add_user_fallible (s : Store) (card_uid name : String) (fail : Bool) :
    PyResult (Bool × Store) :=
  if fail then PyResult.ok (false, s) else PyResult.ok (add_user s card_uid name)

/-- record_clock_event under an injected storage fault: its try block catches
every Exception and returns False. -/
def record_clock_event_fallible (s : Store) (user_id : Nat)
    (event_type : String) (fail : Bool) : PyResult (Bool × Store) :=
  if fail then PyResult.ok (false, s)
  else PyResult.ok (record_clock_event s user_id event_type)

/-- update_user of webui.py under an injected storage fault: caught, False. -/
def update_user_fallible (s : Store) (user_id : Nat) (card_uid name : String)
    (fail : Bool) : PyResult (Bool × Store) :=
  if fail then PyResult.ok (false, s)
  else PyResult.ok (update_user s user_id card_uid name)

/-- delete_user of webui.py under an injected storage fault: caught, False. -/
def delete_user_fallible (s : Store) (user_id : Nat) (fail : Bool) :
    PyResult (Bool × Store) :=
  if fail then PyResult.ok (false, s) else PyResult.ok (delete_user s user_id)

/-- get_user_by_card under an injected storage fault: the function has no
try/except, so the exception propagates to the caller. -/
def get_user_by_card_fallible (s : Store) (card_uid : String) (fail : Bool) :
    PyResult (Option (Nat × String)) :=
  if fail then PyResult.raised else PyResult.ok (get_user_by_card s card_uid)

/-- get_last_event under an injected storage fault: no try/except, the
exception propagates. -/
def get_last_event_fallible (s : Store) (user_id : Nat) (fail : Bool) :
    PyResult (Option String) :=
  if fail then PyResult.raised else PyResult.ok (get_last_event s user_id)

/-- get_clock_events of webui.py under an injected storage fault: no
try/except, the exception propagates. -/
def get_clock_events_fallible (s : Store) (user_id : Option Nat) (fail : Bool) :
    PyResult (List EventRow) :=
  if fail then PyResult.raised else PyResult.ok (get_clock_events s user_id)

/-- Modelled from the spec: no source file implements currently_in; spec
section 4.1 defines it as the set of identities whose last_event_kind is
`in`. -/
def currently_in (s : Store) : List User :=
  s.users.filter (fun u => get_last_event s u.id == some "in")

/-- Every stored event bears a timestamp earlier than the store clock; every
store reachable by the operations satisfies this, since each insert stamps
the pre-advance clock. -/
def timeOK (s : Store) : Prop :=
  ∀ e ∈ s.events, e.timestamp < s.now

instance (s : Store) : Decidable (timeOK s) :=
  inferInstanceAs (Decidable (∀ e ∈ s.events, e.timestamp < s.now))

/-- Every stored event's kind is the literal in or the literal out. -/
def kindsOK (s : Store) : Prop :=
  ∀ e ∈ s.events, e.event_type = "in" ∨ e.event_type = "out"

instance (s : Store) : Decidable (kindsOK s) :=
  inferInstanceAs
    (Decidable (∀ e ∈ s.events, e.event_type = "in" ∨ e.event_type = "out"))

/-- A store holding one enrolled identity (id 1, card "AB") and no events. -/
def oneUserStore : Store := (add_user Store.empty "AB" "Jane").2

/-- A store holding one enrolled identity with a single toggled event. -/
def oneEventStore : Store := (record_event oneUserStore 1).2

/-- Three identities: Alice scans thrice (in, out, in), Bob twice (in, out),
Cara never. -/
def threeUserBase : Store :=
  (add_user (add_user (add_user Store.empty "AA" "Alice").2 "BB" "Bob").2
    "CC" "Cara").2

/-- The scans applied to threeUserBase, ending with Alice in and Bob out. -/
def threeUserStore : Store :=
  (record_event (record_event (record_event (record_event
    (record_event threeUserBase 1).2 1).2 1).2 2).2 2).2

theorem maxByTimestamp_isSome (e : ClockEvent) (es : List ClockEvent) :
    (maxByTimestamp (e :: es)).isSome = true := by
  simp only [maxByTimestamp]
  cases maxByTimestamp es with
  | none => rfl
  | some m =>
    simp only [maxTwo]
    split <;> rfl

theorem maxByTimestamp_mem (l : List ClockEvent) (m : ClockEvent)
    (h : maxByTimestamp l = some m) : m ∈ l := by
  induction l with
  | nil => simp [maxByTimestamp] at h
  | cons e es ih =>
    simp only [maxByTimestamp] at h
    cases hes : maxByTimestamp es with
    | none =>
      rw [hes] at h
      simp only [maxTwo, Option.some.injEq] at h
      simp [h]
    | some m' =>
      rw [hes] at h
      simp only [maxTwo] at h
      by_cases hc : e.timestamp ≤ m'.timestamp
      · rw [if_pos hc] at h
        simp only [Option.some.injEq] at h
        subst h
        exact List.mem_cons_of_mem e (ih hes)
      · rw [if_neg hc] at h
        simp only [Option.some.injEq] at h
        simp [h]

theorem maxByTimestamp_append_last (l : List ClockEvent) (e : ClockEvent)
    (h : ∀ x ∈ l, x.timestamp < e.timestamp) :
    maxByTimestamp (l ++ [e]) = some e := by
  induction l with
  | nil => simp [maxByTimestamp, maxTwo]
  | cons x xs ih =>
    have hx : x.timestamp < e.timestamp := h x (List.mem_cons_self x xs)
    have ih' := ih (fun y hy => h y (List.mem_cons_of_mem x hy))
    have hstep : maxByTimestamp ((x :: xs) ++ [e])
        = maxTwo x (maxByTimestamp (xs ++ [e])) := rfl
    rw [hstep, ih']
    simp only [maxTwo]
    rw [if_pos (Nat.le_of_lt hx)]

theorem maxByTimestamp_unique_max (l : List ClockEvent) (e : ClockEvent)
    (he : e ∈ l)
    (hmax : ∀ x ∈ l, x ≠ e → x.timestamp < e.timestamp) :
    maxByTimestamp l = some e := by
  induction l with
  | nil => cases he
  | cons x xs ih =>
    simp only [maxByTimestamp]
    rcases List.mem_cons.mp he with hxe | hexs
    · subst hxe
      cases hes : maxByTimestamp xs with
      | none => rfl
      | some m =>
        have hm : m ∈ xs := maxByTimestamp_mem xs m hes
        simp only [maxTwo]
        by_cases hme : m = e
        · subst hme
          rw [if_pos (Nat.le_refl _)]
        · have hlt : m.timestamp < e.timestamp :=
            hmax m (List.mem_cons_of_mem _ hm) hme
          rw [if_neg (Nat.not_le.mpr hlt)]
    · have ih' := ih hexs (fun y hy hne => hmax y (List.mem_cons_of_mem x hy) hne)
      rw [ih']
      simp only [maxTwo]
      by_cases hxe : x = e
      · subst hxe
        rw [if_pos (Nat.le_refl _)]
      · have hlt : x.timestamp < e.timestamp :=
          hmax x (List.mem_cons_self x xs) hxe
        rw [if_pos (Nat.le_of_lt hlt)]

theorem userEvents_record_clock_event (s : Store) (uid : Nat) (k : String) :
    userEvents (record_clock_event s uid k).2 uid
      = userEvents s uid ++ [⟨s.nextEventId, uid, k, s.now⟩] := by
  simp [userEvents, record_clock_event, List.filter_append]

theorem get_last_event_record (s : Store) (uid : Nat) (k : String)
    (ht : timeOK s) :
    get_last_event (record_clock_event s uid k).2 uid = some k := by
  rw [get_last_event, userEvents_record_clock_event,
    maxByTimestamp_append_last]
  · rfl
  · intro x hx
    exact ht x (List.mem_of_mem_filter hx)

theorem timeOK_record_clock_event (s : Store) (uid : Nat) (k : String)
    (ht : timeOK s) : timeOK (record_clock_event s uid k).2 := by
  intro e he
  simp only [record_clock_event, List.mem_append, List.mem_singleton] at he
  rcases he with he | he
  · exact Nat.lt_succ_of_lt (ht e he)
  · subst he
    exact Nat.lt_succ_self _

theorem get_last_event_of_no_events (s : Store) (uid : Nat)
    (h : userEvents s uid = []) : get_last_event s uid = none := by
  rw [get_last_event, h]
  rfl

theorem get_last_event_none_iff (s : Store) (uid : Nat) :
    get_last_event s uid = none ↔ userEvents s uid = [] := by
  rw [get_last_event]
  cases hl : userEvents s uid with
  | nil => simp [maxByTimestamp]
  | cons e es =>
    refine iff_of_false ?_ (by simp)
    intro h
    rw [Option.map_eq_none'] at h
    have hs := maxByTimestamp_isSome e es
    rw [h] at hs
    cases hs

/-- C1: the toggle rule of record_event: with no prior event the recorded kind
is in; a most recent in yields out and a most recent out yields in; so for an
identity starting from no events, three sequential non-concurrent record_event
calls record the kinds in, out, in. -/
theorem record_event_toggle (s : Store) (uid : Nat)
    (h0 : userEvents s uid = []) (ht : timeOK s) :
    (record_event s uid).1 = "in"
    ∧ (record_event (record_event s uid).2 uid).1 = "out"
    ∧ (record_event (record_event (record_event s uid).2 uid).2 uid).1 = "in"
    ∧ (∀ t v, get_last_event t v = none → (record_event t v).1 = "in")
    ∧ (∀ t v, get_last_event t v = some "in" → (record_event t v).1 = "out")
    ∧ (∀ t v, get_last_event t v = some "out" → (record_event t v).1 = "in") := by
  have hfst : ∀ (t : Store) (v : Nat),
      (record_event t v).1 = next_kind (get_last_event t v) := fun _ _ => rfl
  have hsnd : ∀ (t : Store) (v : Nat),
      (record_event t v).2
        = (record_clock_event t v (next_kind (get_last_event t v))).2 :=
    fun _ _ => rfl
  have hl0 : get_last_event s uid = none := get_last_event_of_no_events s uid h0
  have hk1 : (record_event s uid).1 = "in" := by
    rw [hfst, hl0]
    rfl
  have hl1 : get_last_event (record_event s uid).2 uid = some "in" := by
    rw [hsnd, hl0]
    exact get_last_event_record s uid "in" ht
  have ht1 : timeOK (record_event s uid).2 := by
    rw [hsnd]
    exact timeOK_record_clock_event s uid _ ht
  have hk2 : (record_event (record_event s uid).2 uid).1 = "out" := by
    rw [hfst, hl1]
    rfl
  have hl2 : get_last_event (record_event (record_event s uid).2 uid).2 uid
      = some "out" := by
    rw [hsnd, hl1]
    exact get_last_event_record _ uid "out" ht1
  have hk3 :
      (record_event (record_event (record_event s uid).2 uid).2 uid).1
        = "in" := by
    rw [hfst, hl2]
    rfl
  refine ⟨hk1, hk2, hk3, ?_, ?_, ?_⟩ <;>
    · intro t v h
      rw [hfst, h]
      rfl

/-- C1 witness: the toggle applied three times to a freshly enrolled identity
with no events records in, then out, then in. -/
theorem record_event_toggle_witness :
    userEvents oneUserStore 1 = [] ∧ timeOK oneUserStore
    ∧ (record_event oneUserStore 1).1 = "in"
    ∧ (record_event (record_event oneUserStore 1).2 1).1 = "out"
    ∧ (record_event (record_event (record_event oneUserStore 1).2 1).2 1).1
        = "in" :=
  ⟨by decide, by decide,
    (record_event_toggle oneUserStore 1 (by decide) (by decide)).1,
    (record_event_toggle oneUserStore 1 (by decide) (by decide)).2.1,
    (record_event_toggle oneUserStore 1 (by decide) (by decide)).2.2.1⟩

/-- C6: delete_identity is atomic: a delete_user run either commits both the
deletion of the identity's events and of the identity row, or fails at some
step and leaves the store exactly as it was. -/
theorem delete_user_atomic (s : Store) (uid : Nat) (failAt : Option DelStep) :
    delete_user_run s uid failAt
        = (true, { s with
            events := s.events.filter (fun e => e.user_id != uid),
            users := s.users.filter (fun u => u.id != uid) })
    ∨ delete_user_run s uid failAt = (false, s) := by
  rcases failAt with _ | step
  · left
    rfl
  · right
    cases step <;> rfl

/-- C8 (amended): the write operations (add_user, record_clock_event,
update_user, delete_user) catch every storage failure inside their try blocks
and return a failure value, while the read operations (get_user_by_card,
get_last_event, get_clock_events) have no handler and let a storage fault
propagate to the caller as a raised exception. -/
theorem storage_failure_boundary (s : Store) (card name k : String) (uid : Nat)
    (ouid : Option Nat) (fail : Bool) :
    add_user_fallible s card name fail ≠ PyResult.raised
    ∧ record_clock_event_fallible s uid k fail ≠ PyResult.raised
    ∧ update_user_fallible s uid card name fail ≠ PyResult.raised
    ∧ delete_user_fallible s uid fail ≠ PyResult.raised
    ∧ get_user_by_card_fallible s card true = PyResult.raised
    ∧ get_last_event_fallible s uid true = PyResult.raised
    ∧ get_clock_events_fallible s ouid true = PyResult.raised := by
  refine ⟨?_, ?_, ?_, ?_, rfl, rfl, rfl⟩ <;>
    cases fail <;>
      exact fun h => PyResult.noConfusion h

/-- C8 counterexample: get_user_by_card is a Ledger read with no try/except,
so a storage fault propagates to the caller as a raised exception instead of
being returned as a typed outcome, refuting the claim that every operation,
reads included, catches storage failures. -/
theorem read_op_propagates :
    get_user_by_card_fallible Store.empty "AB" true = PyResult.raised := rfl

/-- C9 (amended): the toggle recording path only ever inserts the kind in or
out, so it preserves the invariant that every stored event is in or out; the
schema itself and record_clock_event do not enforce it. -/
theorem record_event_preserves_kindsOK (s : Store) (uid : Nat)
    (h : kindsOK s) : kindsOK (record_event s uid).2 := by
  intro e he
  have hev : (record_event s uid).2.events
      = s.events
        ++ [⟨s.nextEventId, uid, next_kind (get_last_event s uid), s.now⟩] :=
    rfl
  rw [hev] at he
  rcases List.mem_append.mp he with he | he
  · exact h e he
  · have heq :
        e = ⟨s.nextEventId, uid, next_kind (get_last_event s uid), s.now⟩ := by
      simpa using he
    subst heq
    show next_kind (get_last_event s uid) = "in"
      ∨ next_kind (get_last_event s uid) = "out"
    unfold next_kind
    split
    · exact Or.inr rfl
    · exact Or.inl rfl

/-- C9 witness: a store whose single event was produced by the toggle
satisfies the kind invariant, and recording again preserves it. -/
theorem record_event_preserves_kindsOK_witness :
    kindsOK oneEventStore ∧ kindsOK (record_event oneEventStore 1).2 :=
  ⟨by decide, record_event_preserves_kindsOK oneEventStore 1 (by decide)⟩

/-- C9 counterexample: record_clock_event called with an arbitrary kind string
succeeds and the store then holds an event whose kind is neither in nor out:
neither the schema (event_type TEXT NOT NULL, no CHECK) nor the insertion path
restricts the kind. -/
theorem record_clock_event_arbitrary_kind :
    (record_clock_event Store.empty 7 "lunch").1 = true
    ∧ (record_clock_event Store.empty 7 "lunch").2.events
        = [⟨1, 7, "lunch", 0⟩]
    ∧ ("lunch" == "in") = false
    ∧ ("lunch" == "out") = false := by
  refine ⟨rfl, rfl, ?_, ?_⟩ <;> decide

/-- C2: for a card token no current identity holds, a first add_user succeeds,
a second add_user with the same token fails with the duplicate outcome and
changes nothing, and the resulting store holds exactly one identity with that
token. -/
theorem enroll_duplicate_card (s : Store) (card name name' : String)
    (hfresh : cardExists s card = false) :
    (add_user s card name).1 = true
    ∧ (add_user (add_user s card name).2 card name').1 = false
    ∧ (add_user (add_user s card name).2 card name').2
        = (add_user s card name).2
    ∧ ((add_user (add_user s card name).2 card name').2.users.filter
        (fun u => u.card_uid == card)).length = 1 := by
  have h1 : add_user s card name
      = (true, ⟨s.users ++ [⟨s.nextUserId, card, name⟩], s.events,
          s.nextUserId + 1, s.nextEventId, s.now⟩) := by
    simp [add_user, hfresh]
  have h2 : cardExists (add_user s card name).2 card = true := by
    rw [h1]
    simp [cardExists, List.any_append]
  have hdup : ∀ t : Store, cardExists t card = true
      → add_user t card name' = (false, t) := by
    intro t h
    simp [add_user, h]
  have h3 : add_user (add_user s card name).2 card name'
      = (false, (add_user s card name).2) := hdup (add_user s card name).2 h2
  have hnil : s.users.filter (fun u => u.card_uid == card) = [] := by
    rw [List.filter_eq_nil_iff]
    exact List.any_eq_false.mp hfresh
  refine ⟨by rw [h1], by rw [h3], by rw [h3], ?_⟩
  rw [h3, h1]
  simp [List.filter_append, hnil]

/-- C2 witness: enrolling card "AB" twice into the empty store: the first call
succeeds, the second fails, and one identity holds the token. -/
theorem enroll_duplicate_card_witness :
    cardExists Store.empty "AB" = false
    ∧ (add_user Store.empty "AB" "Jane").1 = true
    ∧ (add_user (add_user Store.empty "AB" "Jane").2 "AB" "Mara").1 = false
    ∧ ((add_user (add_user Store.empty "AB" "Jane").2 "AB" "Mara").2.users.filter
        (fun u => u.card_uid == "AB")).length = 1 :=
  ⟨by decide,
    (enroll_duplicate_card Store.empty "AB" "Jane" "Mara" (by decide)).1,
    (enroll_duplicate_card Store.empty "AB" "Jane" "Mara" (by decide)).2.1,
    (enroll_duplicate_card Store.empty "AB" "Jane" "Mara" (by decide)).2.2.2⟩

theorem validate_card_uid_iff (card : String) :
    validate_card_uid card = true ↔ 2 ≤ card.length ∧ card.length ≤ 64 := by
  unfold validate_card_uid
  by_cases hc : card = ""
  · subst hc
    decide
  · have hbe : (card == "") = false := beq_eq_false_iff_ne.mpr hc
    have hb0 : ¬ ((card == "") = true) := by simp [hbe]
    rw [if_neg hb0]
    by_cases hlen : card.length < 2 ∨ card.length > 64
    · have hb : (decide (card.length < 2) || decide (card.length > 64))
          = true := by
        rcases hlen with h | h
        · simp [h]
        · simp [h]
      rw [if_pos hb]
      exact iff_of_false (by simp) (by omega)
    · push_neg at hlen
      have hb : (decide (card.length < 2) || decide (card.length > 64))
          = false := by
        simp only [Bool.or_eq_false_iff, decide_eq_false_iff_not]
        exact ⟨Nat.not_lt.mpr hlen.1, Nat.not_lt.mpr hlen.2⟩
      rw [if_neg (by simp [hb])]
      exact iff_of_true rfl (by omega)

/-- C3 (amended): the demo console path rejects a fresh token whose length
lies outside 2..64 and rejects an empty name, and accepts a fresh length-2
token with a non-empty name; the web admin path rejects only an empty token
or an empty name, so it accepts any non-empty fresh token, a length-1 token
included. -/
theorem enroll_validation_paths (s : Store) (card name : String)
    (hfresh : cardExists s card = false) :
    ((card.length < 2 ∨ 64 < card.length) →
      demo_enroll s card name = (EnrollOutcome.invalidInput, s))
    ∧ (name = "" → demo_enroll s card name = (EnrollOutcome.invalidInput, s))
    ∧ (card.length = 2 → name ≠ "" →
        (demo_enroll s card name).1 = EnrollOutcome.enrolled)
    ∧ ((card = "" ∨ name = "") →
        webui_enroll s card name = (EnrollOutcome.invalidInput, s))
    ∧ (card ≠ "" → name ≠ "" →
        (webui_enroll s card name).1 = EnrollOutcome.enrolled) := by
  refine ⟨?_, ?_, ?_, ?_, ?_⟩
  · intro hlen
    have hv : validate_card_uid card = false := by
      rw [Bool.eq_false_iff]
      intro htrue
      have := (validate_card_uid_iff card).mp htrue
      omega
    simp [demo_enroll, hv]
  · intro hname
    subst hname
    by_cases hv : validate_card_uid card
    · simp [demo_enroll, hv]
    · simp [demo_enroll, hv]
  · intro hlen hname
    have hv : validate_card_uid card = true :=
      (validate_card_uid_iff card).mpr (by omega)
    have hn : (name == "") = false := beq_eq_false_iff_ne.mpr hname
    simp [demo_enroll, hv, hn, add_user, hfresh]
  · intro h
    rcases h with h | h <;> subst h <;> simp [webui_enroll]
  · intro hcard hname
    have hc : (card == "") = false := beq_eq_false_iff_ne.mpr hcard
    have hn : (name == "") = false := beq_eq_false_iff_ne.mpr hname
    simp [webui_enroll, hc, hn, add_user, hfresh]

/-- C3 counterexample: the web admin enrollment path accepts the length-1
card token "A" with a non-empty name and inserts the identity, so a length-1
token does not fail with InvalidInput on every enrollment path. -/
theorem webui_accepts_short_token :
    (webui_enroll Store.empty "A" "X").1 = EnrollOutcome.enrolled
    ∧ (webui_enroll Store.empty "A" "X").2.users = [⟨1, "A", "X"⟩] := by
  constructor <;> rfl

/-- C3 witness: the demo path rejects the length-1 token "A" and accepts the
length-2 token "AB"; the web path also accepts "AB". -/
theorem enroll_validation_paths_witness :
    demo_enroll Store.empty "A" "X" = (EnrollOutcome.invalidInput, Store.empty)
    ∧ (demo_enroll Store.empty "AB" "X").1 = EnrollOutcome.enrolled
    ∧ (webui_enroll Store.empty "AB" "X").1 = EnrollOutcome.enrolled := by
  refine ⟨?_, ?_, ?_⟩
  · exact (enroll_validation_paths Store.empty "A" "X" (by decide)).1
      (by decide)
  · exact (enroll_validation_paths Store.empty "AB" "X" (by decide)).2.2.1
      (by decide) (by decide)
  · exact (enroll_validation_paths Store.empty "AB" "X" (by decide)).2.2.2.2
      (by decide) (by decide)

/-- C4: last_event_kind returns none exactly when the identity has no events,
and when one of the identity's events has a strictly greatest timestamp it
returns that event's kind. -/
theorem last_event_kind_correct (s : Store) (uid : Nat) :
    (get_last_event s uid = none ↔ userEvents s uid = [])
    ∧ (∀ e, e ∈ userEvents s uid →
        (∀ x, x ∈ userEvents s uid → x ≠ e → x.timestamp < e.timestamp) →
        get_last_event s uid = some e.event_type) := by
  constructor
  · exact get_last_event_none_iff s uid
  · intro e he hmax
    rw [get_last_event, maxByTimestamp_unique_max (userEvents s uid) e he hmax]
    rfl

/-- C4 witness: after a single in event the last kind is in; with no events it
is none. -/
theorem last_event_kind_correct_witness :
    get_last_event oneEventStore 1 = some "in"
    ∧ get_last_event Store.empty 1 = none := by
  constructor
  · exact (last_event_kind_correct oneEventStore 1).2 ⟨1, 1, "in", 0⟩
      (by decide) (by decide)
  · exact (last_event_kind_correct Store.empty 1).1.mpr (by decide)

/-- C5: when every holder of a card token is the identity being deleted,
delete_user succeeds, the event listing filtered to that identity is empty
afterwards, and re-enrolling the former card token succeeds. -/
theorem delete_identity_removes_events (s : Store) (uid : Nat)
    (card name : String) (hpos : uid ≠ 0)
    (hcard : ∀ u ∈ s.users, u.card_uid = card → u.id = uid) :
    (delete_user s uid).1 = true
    ∧ get_clock_events (delete_user s uid).2 (some uid) = []
    ∧ (add_user (delete_user s uid).2 card name).1 = true := by
  have hs' : (delete_user s uid).2
      = { s with events := s.events.filter (fun e => e.user_id != uid),
                 users := s.users.filter (fun u => u.id != uid) } := rfl
  have hfe : (s.events.filter (fun e => e.user_id != uid)).filter
      (fun e => e.user_id == uid) = [] := by
    rw [List.filter_filter, List.filter_eq_nil_iff]
    intro e _ hp
    rw [Bool.and_eq_true] at hp
    obtain ⟨h1, h2⟩ := hp
    rw [eq_of_beq h1] at h2
    simp at h2
  have hb : (uid != 0) = true := by
    simp [hpos]
  have hgce : get_clock_events (delete_user s uid).2 (some uid) = [] := by
    rw [hs']
    simp [get_clock_events, hb, hfe, sortRowsDesc]
  have hce : cardExists (delete_user s uid).2 card = false := by
    rw [hs']
    simp only [cardExists]
    rw [List.any_eq_false]
    intro u hu hbeq
    have humem : u ∈ s.users := (List.mem_filter.mp hu).1
    have hupred : (u.id != uid) = true := (List.mem_filter.mp hu).2
    have hid : u.id = uid := hcard u humem (eq_of_beq hbeq)
    rw [hid] at hupred
    simp at hupred
  refine ⟨rfl, hgce, ?_⟩
  simp [add_user, hce]

/-- C5 witness: deleting the only identity (which owns one event) empties its
event listing and frees its card token for re-enrollment. -/
theorem delete_identity_removes_events_witness :
    (delete_user oneEventStore 1).1 = true
    ∧ get_clock_events (delete_user oneEventStore 1).2 (some 1) = []
    ∧ (add_user (delete_user oneEventStore 1).2 "AB" "Kim").1 = true :=
  delete_identity_removes_events oneEventStore 1 "AB" "Kim" (by decide)
    (by decide)

/-- C7: currently_in holds exactly the identities whose most recent event
kind is in. -/
theorem currently_in_iff (s : Store) (u : User) :
    u ∈ currently_in s ↔ u ∈ s.users ∧ get_last_event s u.id = some "in" := by
  simp [currently_in, List.mem_filter]

/-- C7 witness: with Alice at [in, out, in], Bob at [in, out] and Cara at no
events, currently_in is exactly the singleton Alice. -/
theorem currently_in_example :
    currently_in threeUserStore = [⟨1, "AA", "Alice"⟩]
    ∧ get_last_event threeUserStore 1 = some "in"
    ∧ get_last_event threeUserStore 2 = some "out"
    ∧ get_last_event threeUserStore 3 = none := by
  refine ⟨?_, ?_, ?_, ?_⟩ <;> rfl

/-- C10: update_user and delete_user applied to an identity id absent from a
store whose events all belong to existing identities both report success and
leave the store unchanged. -/
theorem missing_identity_ops_succeed (s : Store) (uid : Nat)
    (card name : String)
    (hno : ∀ u ∈ s.users, u.id ≠ uid)
    (hfk : ∀ e ∈ s.events, ∃ u ∈ s.users, u.id = e.user_id) :
    update_user s uid card name = (true, s)
    ∧ delete_user s uid = (true, s) := by
  have husers : s.users.filter (fun u => u.id != uid) = s.users := by
    rw [List.filter_eq_self]
    intro u hu
    simp [hno u hu]
  have hevents : s.events.filter (fun e => e.user_id != uid) = s.events := by
    rw [List.filter_eq_self]
    intro e he
    rcases hfk e he with ⟨u, hu, hid⟩
    have hne : e.user_id ≠ uid := by
      rw [← hid]
      exact hno u hu
    simp [hne]
  constructor
  · have hany : s.users.any (fun u => u.id == uid) = false := by
      rw [List.any_eq_false]
      intro u hu hbeq
      exact hno u hu (eq_of_beq hbeq)
    have hmap : s.users.map (fun u =>
        if u.id == uid then { u with card_uid := card, name := name } else u)
        = s.users := by
      conv_rhs => rw [← List.map_id s.users]
      apply List.map_congr_left
      intro u hu
      have hbne : (u.id == uid) = false := beq_eq_false_iff_ne.mpr (hno u hu)
      simp [hbne]
    have hcond : (s.users.any (fun u => u.id == uid) &&
        s.users.any (fun u => u.id != uid && u.card_uid == card)) = false := by
      rw [hany]
      rfl
    rw [update_user, if_neg (by simp [hcond]), hmap]
  · show delete_user_run s uid none = (true, s)
    simp [delete_user_run, husers, hevents]

/-- C10 witness: updating and deleting the absent identity id 99 both succeed
and leave the one-identity store untouched. -/
theorem missing_identity_ops_succeed_witness :
    update_user oneEventStore 99 "ZZ" "Zed" = (true, oneEventStore)
    ∧ delete_user oneEventStore 99 = (true, oneEventStore) :=
  missing_identity_ops_succeed oneEventStore 99 "ZZ" "Zed" (by decide)
    (by decide)

end Punchpy
